import Mathlib

/-!
Shallow embedding of the property-mutation consistency protocol of
`src/app/actions/property-actions.ts` (PropMatch).

The three external resources (spec section 2) are modelled as one `Store`:
a list of `Property` rows, a list of `PropertyImage` rows and the set of
file locations held by the object store.  Outcomes of the external
services (authentication, relational-store acceptance/rejection of each
statement, the object store's answer to each upload) are inputs of the
embedding: an `Env` record of per-statement outcomes plus, for each file,
the object store's response to its upload (`FileUpload.uploadResult`,
`some url` on success with the collision-resistant public location the
store produced, `none` when the upload is rejected).

Faithfulness notes, from the supabase client semantics the code relies on:
an `update`/`delete` whose filter matches zero rows is a success with zero
affected rows, not an error (only `createProperty` uses `.single()`, which
does error on zero rows); `ON DELETE CASCADE` on `PropertyImage.property_id`
(migration 202507172020.sql) removes the image rows of every deleted
property.  The row-level-security policies of migration 202507172025.sql
(applied per the README; every client runs on the anon key) are part of the
program: the `PropertyImage` select and delete statements are scoped to
rows of properties the acting user owns (`ownsProperty` below), while the
`Property` update/delete statements already carry the matching explicit
`user_id` filter, the inserts satisfy their WITH CHECK clauses (rows are
created under the caller's own id), and the compensating delete targets the
caller's own freshly created row, so RLS changes nothing on those paths.
The `property-images` storage bucket is created without owner-scoped
policies (README step 5), so storage-deletion attempts are issued for
whatever locations the caller supplies.  `revalidatePath`/`redirect` are the on-success signal of spec
section 6 and carry no store effect, so they are not modelled.  The
URL-to-path extraction inside `deleteImageFromStorage` is elided: the
object store is keyed directly by public location.
-/

namespace Propmatch

/-- The form fields of a property, as extracted from the FormData in
`createProperty`/`updateProperty` (string parsing of the numeric fields is
presentation-layer and kept as the raw strings here). -/
structure FormFields where
  title : String
  location : String
  city : String
  priceDay : String
  propertyTypeId : String
  bedrooms : String
  bathrooms : String
  rate : Int
  description : String
deriving DecidableEq

/-- One row of the `Property` table: identifier, owning user, fields. -/
structure PropertyRow where
  id : Nat
  user_id : Nat
  data : FormFields
deriving DecidableEq

/-- One row of the `PropertyImage` table. -/
structure ImageRow where
  property_id : Nat
  image_url : String
deriving DecidableEq

/-- An image file supplied to an operation, together with the object
store's outcome for its upload: `some url` means the upload succeeds and
yields public location `url`; `none` means the upload is rejected. -/
structure FileUpload where
  name : String
  size : Nat
  uploadResult : Option String
deriving DecidableEq

/-- The three external stores: `Property` rows, `PropertyImage` rows, and
the object store's file locations. -/
structure Store where
  properties : List PropertyRow
  propertyImages : List ImageRow
  objectStore : List String
deriving DecidableEq

/-- The typed failures thrown by the three operations, one constructor per
`throw new Error(...)` site. -/
inductive Err where
  | authRequired
  | persistenceFailure
  | uploadFailed
  | imageInsertFailed
deriving DecidableEq

/-- Outcomes of the external services for one call: the resolved identity
and, per relational statement, whether the store accepts it.  A filter
matching zero rows is NOT a rejection (supabase returns no error then);
these flags model the store itself erroring. -/
structure Env where
  user : Option Nat
  insertPropertyOk : Bool
  newPropertyId : Nat
  imageInsertOk : Bool
  compensatingDeleteOk : Bool
  propertyUpdateOk : Bool
  imageRowDeleteOk : Bool
  listImagesOk : Bool
  propertyDeleteOk : Bool
deriving DecidableEq

instance : DecidableEq (Except Err Unit) := fun a b =>
  match a, b with
  | .ok (), .ok () => .isTrue rfl
  | .ok (), .error _ => .isFalse (fun h => Except.noConfusion h)
  | .error _, .ok () => .isFalse (fun h => Except.noConfusion h)
  | .error e, .error e' =>
    match decEq e e' with
    | .isTrue h => .isTrue (by rw [h])
    | .isFalse h => .isFalse (fun hh => h (by cases hh; rfl))

/-- Result of one operation: the value returned or error thrown, the
stores afterwards, and the trace of best-effort file-deletion attempts
issued to the object store. -/
structure OpOut where
  result : Except Err Unit
  store : Store
  removeAttempts : List String
deriving DecidableEq

/-- `uploadImageToStorage`: upload one file; on success the object store
gains the file at its public location and the location is returned; on
rejection the error is thrown. -/
def uploadImageToStorage (file : FileUpload) (s : Store) :
    Except Err (String × Store) :=
  match file.uploadResult with
  | none => .error .uploadFailed
  | some url => .ok (url, { s with objectStore := s.objectStore ++ [url] })

/-- `deleteImageFromStorage`: best-effort removal of the file at a public
location; never throws. -/
def deleteImageFromStorage (imageUrl : String) (s : Store) : Store :=
  { s with objectStore := s.objectStore.filter (fun u => u != imageUrl) }

/-- Issue the best-effort storage deletions for a list of locations. -/
def deleteImagesFromStorage (urls : List String) (s : Store) : Store :=
  urls.foldl (fun st url => deleteImageFromStorage url st) s

/-- `saveImageUrls`: batch-insert one `PropertyImage` row per location;
an empty list returns at once; the store may reject the insert. -/
def saveImageUrls (env : Env) (propertyId : Nat) (imageUrls : List String)
    (s : Store) : Except Err Store :=
  if imageUrls.length = 0 then .ok s
  else if env.imageInsertOk then
    let newRows : List ImageRow := imageUrls.map (fun url => ⟨propertyId, url⟩)
    .ok { s with propertyImages := s.propertyImages ++ newRows }
  else .error .imageInsertFailed

/-- A relational `DELETE` on `Property` with the given row filter; the
`ON DELETE CASCADE` rule removes the `PropertyImage` rows of every deleted
property. -/
def cascadeDeleteProperty (rowMatch : PropertyRow → Bool) (s : Store) : Store :=
  let removedIds := (s.properties.filter rowMatch).map (fun r => r.id)
  let keptImages := s.propertyImages.filter
    (fun r => !(removedIds.contains r.property_id))
  { s with
    properties := s.properties.filter (fun r => !(rowMatch r)),
    propertyImages := keptImages }

/-- The sequential upload loop of `createProperty`: files one at a time in
input order, collecting locations; the first rejection aborts the loop and
the error propagates, with the store as of that point (prior uploads are
kept). -/
def uploadImagesSeq : List FileUpload → Store → Except (Err × Store) (List String × Store)
  | [], s => .ok ([], s)
  | file :: rest, s =>
    match uploadImageToStorage file s with
    | .error e => .error (e, s)
    | .ok (url, s1) =>
      match uploadImagesSeq rest s1 with
      | .error es => .error es
      | .ok (urls, s2) => .ok (url :: urls, s2)

/-- The per-file try/catch upload loop of `updateProperty`: a rejected
upload is logged and skipped, the loop continues. -/
def uploadImagesSkip : List FileUpload → Store → (List String × Store)
  | [], s => ([], s)
  | file :: rest, s =>
    match uploadImageToStorage file s with
    | .error _ => uploadImagesSkip rest s
    | .ok (url, s1) =>
      let (urls, s2) := uploadImagesSkip rest s1
      (url :: urls, s2)

/-- The compensating deletion in `createProperty`'s catch block:
`supabase.from('Property').delete().eq('id', property.id)` — filtered by id
only; its own error object is discarded, so a rejection by the store
(`compensatingDeleteOk = false`) leaves the row in place with no trace. -/
def rollbackCreate (env : Env) (propertyId : Nat) (st : Store) : Store :=
  if env.compensatingDeleteOk then
    cascadeDeleteProperty (fun r => r.id == propertyId) st
  else st

/-- `createProperty` (property-actions.ts lines 182-242): authenticate,
filter zero-size files, insert the `Property` row, then upload the valid
images sequentially and batch-insert their rows; on any failure in the
image phase, issue the compensating delete of the new row (its own
rejection is not inspected) and propagate the original error. -/
def createProperty (env : Env) (f : FormFields) (images : List FileUpload)
    (s : Store) : OpOut :=
  match env.user with
  | none => ⟨.error .authRequired, s, []⟩
  | some uid =>
    let validImages := images.filter (fun file => decide (file.size > 0))
    if env.insertPropertyOk then
      let property : PropertyRow := ⟨env.newPropertyId, uid, f⟩
      let s1 : Store := { s with properties := s.properties ++ [property] }
      if validImages.length > 0 then
        match uploadImagesSeq validImages s1 with
        | .error (e, s2) => ⟨.error e, rollbackCreate env property.id s2, []⟩
        | .ok (imageUrls, s2) =>
          match saveImageUrls env property.id imageUrls s2 with
          | .error e => ⟨.error e, rollbackCreate env property.id s2, []⟩
          | .ok s3 => ⟨.ok (), s3, []⟩
      else ⟨.ok (), s1, []⟩
    else ⟨.error .persistenceFailure, s, []⟩

/-- The `EXISTS (SELECT 1 FROM "Property" WHERE id = property_id AND
user_id = auth.uid())` ownership test of the row-level-security policies
on `PropertyImage` (migration 202507172025.sql, applied per the README and
effective because the app runs on the anon key): true when some `Property`
row has this id and is owned by the acting user. -/
def ownsProperty (uid : Nat) (propertyId : Nat) (s : Store) : Bool :=
  s.properties.any (fun q => q.id == propertyId && q.user_id == uid)

/-- Step 1 of `updateProperty`: the relational `UPDATE` on `Property`
filtered by id AND user id; rows matching both get the new field values,
all other rows are untouched (zero matched rows is not an error). -/
def updateRowPhase (propertyId : Nat) (uid : Nat) (f : FormFields)
    (s : Store) : Store :=
  { s with properties := s.properties.map (fun r =>
      if r.id == propertyId && r.user_id == uid then { r with data := f }
      else r) }

/-- The row filter of the batched `PropertyImage` deletion
(`.delete().in('image_url', deletedImageUrls)`): the statement itself
matches by location only — it carries no filter on the target property —
but the store's "Users can delete images from own properties" RLS policy
scopes it to rows whose owning `Property` belongs to the acting user.  A
row is removed exactly when its location is in the list AND the caller
owns its property. -/
def rowsNotDeleted (uid : Nat) (deletedImageUrls : List String) (s1 : Store) :
    List ImageRow :=
  s1.propertyImages.filter (fun r =>
    !(deletedImageUrls.contains r.image_url && ownsProperty uid r.property_id s1))

/-- Step 2 of `updateProperty` (lines 313-326): when `deletedImages` is
non-empty, batch-delete the `PropertyImage` rows whose location is in the
list — matched by location only — unless the store rejects the statement
(rejection is logged only), then fire off one best-effort storage deletion
per listed location.  Returns the store and the deletion attempts issued. -/
def deletePhase (env : Env) (uid : Nat) (deletedImageUrls : List String)
    (s1 : Store) : Store × List String :=
  if deletedImageUrls.length > 0 then
    (deleteImagesFromStorage deletedImageUrls
      (if env.imageRowDeleteOk then
        { s1 with propertyImages := rowsNotDeleted uid deletedImageUrls s1 }
      else s1),
      deletedImageUrls)
  else (s1, [])

/-- Steps 3-4 of `updateProperty` (lines 328-343): upload the valid new
images with per-file skip, then insert rows for the locations that
uploaded; an insert rejection propagates. -/
def addPhase (env : Env) (propertyId : Nat) (validImages : List FileUpload)
    (s2 : Store) (attempts : List String) : OpOut :=
  if validImages.length > 0 then
    let up := uploadImagesSkip validImages s2
    if up.1.length > 0 then
      match saveImageUrls env propertyId up.1 up.2 with
      | .error e => ⟨.error e, up.2, attempts⟩
      | .ok s4 => ⟨.ok (), s4, attempts⟩
    else ⟨.ok (), up.2, attempts⟩
  else ⟨.ok (), s2, attempts⟩

/-- `updateProperty` (property-actions.ts lines 271-347): authenticate,
update the row filtered by id AND user id (zero matched rows is success),
then batch-delete the `PropertyImage` rows whose location is in
`deletedImageUrls` — the statement matches by location only, and the RLS
delete policy further scopes it to rows of caller-owned properties — and
fire off best-effort storage deletions, then upload the valid new images
with per-file skip and insert rows for the successful ones. -/
def updateProperty (env : Env) (propertyId : Nat) (f : FormFields)
    (images : List FileUpload) (deletedImageUrls : List String)
    (s : Store) : OpOut :=
  match env.user with
  | none => ⟨.error .authRequired, s, []⟩
  | some uid =>
    let validImages := images.filter (fun file => decide (file.size > 0))
    if env.propertyUpdateOk then
      let s1 := updateRowPhase propertyId uid f s
      let p2 := deletePhase env uid deletedImageUrls s1
      addPhase env propertyId validImages p2.1 p2.2
    else ⟨.error .persistenceFailure, s, []⟩

/-- `deleteProperty` (property-actions.ts lines 369-400): authenticate,
read the property's image locations — under the "Users can view images of
own properties" RLS policy the select only returns rows whose property the
caller owns (a failed read yields no data and is ignored) — delete the row
filtered by id AND user id (zero matched rows is success; the cascade, a
referential action unaffected by RLS, removes the deleted property's image
rows), then issue best-effort storage deletions for every location read. -/
def deleteProperty (env : Env) (propertyId : Nat) (s : Store) : OpOut :=
  match env.user with
  | none => ⟨.error .authRequired, s, []⟩
  | some uid =>
    let images : List String :=
      if env.listImagesOk then
        (s.propertyImages.filter (fun r =>
          r.property_id == propertyId && ownsProperty uid r.property_id s)).map
          (fun r => r.image_url)
      else []
    if env.propertyDeleteOk then
      let s1 := cascadeDeleteProperty
        (fun r => r.id == propertyId && r.user_id == uid) s
      if images.length > 0 then
        ⟨.ok (), deleteImagesFromStorage images s1, images⟩
      else ⟨.ok (), s1, []⟩
    else ⟨.error .persistenceFailure, s, []⟩

/-! Concrete sample data, used by the witnesses and counterexamples. -/

/-- A sample set of form fields. -/
def sampleFields : FormFields := ⟨"t", "loc", "city", "10", "1", "2", "1", 3, "d"⟩

/-- A second sample set of form fields. -/
def sampleFields2 : FormFields := ⟨"t2", "loc2", "city2", "20", "1", "3", "2", 4, "d2"⟩

/-- A file whose upload the object store accepts at location `urlA`. -/
def fileOkA : FileUpload := ⟨"a.jpg", 5, some "urlA"⟩

/-- A file whose upload the object store accepts at location `urlB`. -/
def fileOkB : FileUpload := ⟨"b.jpg", 6, some "urlB"⟩

/-- A file whose upload the object store rejects. -/
def fileBad : FileUpload := ⟨"c.jpg", 4, none⟩

/-- A zero-size file (would be accepted at `urlZ` were it uploaded). -/
def fileZero : FileUpload := ⟨"z.jpg", 0, some "urlZ"⟩

/-- An environment where user 1 is signed in and every store call succeeds. -/
def envAll : Env := ⟨some 1, true, 7, true, true, true, true, true, true⟩

/-- The same environment but with user 2 signed in. -/
def envOther : Env := { envAll with user := some 2 }

/-- A store holding one property (id 1, owned by user 1) with one image row
at location `u`, whose file is in the object store. -/
def baseStore : Store := ⟨[⟨1, 1, sampleFields⟩], [⟨1, "u"⟩], ["u"]⟩

/-- A store with two properties: property 1 owned by user 1 with image row
at location `u`, and property 2 owned by user 2 with image row at location
`v`; both files are in the object store. -/
def twoOwnerStore : Store :=
  ⟨[⟨1, 1, sampleFields⟩, ⟨2, 2, sampleFields2⟩], [⟨1, "u"⟩, ⟨2, "v"⟩], ["u", "v"]⟩

/-- An environment in which no identity resolves. -/
def envNoUser : Env := { envAll with user := none }

/-- An environment where the relational update of the Property row fails. -/
def envUpdFail : Env := { envAll with propertyUpdateOk := false }

/-- An environment where the compensating delete of the Property row is
rejected by the relational store. -/
def envNoCompensate : Env := { envAll with compensatingDeleteOk := false }

/-! Helper lemmas about the loops. -/

theorem uploadImagesSeq_ok (l : List FileUpload) (s : Store) (urls : List String)
    (s' : Store) (h : uploadImagesSeq l s = .ok (urls, s')) :
    s'.properties = s.properties ∧ s'.propertyImages = s.propertyImages ∧
      urls.length = l.length := by
  induction l generalizing s urls s' with
  | nil =>
    simp only [uploadImagesSeq, Except.ok.injEq, Prod.mk.injEq] at h
    obtain ⟨h1, h2⟩ := h
    subst h1; subst h2
    exact ⟨rfl, rfl, rfl⟩
  | cons file rest ih =>
    cases hu : file.uploadResult with
    | none =>
      simp only [uploadImagesSeq, uploadImageToStorage, hu] at h
      exact Except.noConfusion h
    | some url =>
      simp only [uploadImagesSeq, uploadImageToStorage, hu] at h
      cases hrec : uploadImagesSeq rest { s with objectStore := s.objectStore ++ [url] } with
      | error es =>
        simp only [hrec] at h
        exact Except.noConfusion h
      | ok p =>
        obtain ⟨us, s2⟩ := p
        simp only [hrec, Except.ok.injEq, Prod.mk.injEq] at h
        obtain ⟨h1, h2⟩ := h
        subst h1; subst h2
        obtain ⟨hp, hi, hl⟩ := ih _ _ _ hrec
        exact ⟨hp, hi, by simp [hl]⟩

theorem uploadImagesSeq_err (l : List FileUpload) (s : Store) (e : Err)
    (s' : Store) (h : uploadImagesSeq l s = .error (e, s')) :
    s'.properties = s.properties ∧ s'.propertyImages = s.propertyImages ∧
      e = .uploadFailed := by
  induction l generalizing s e s' with
  | nil =>
    simp only [uploadImagesSeq] at h
    exact Except.noConfusion h
  | cons file rest ih =>
    cases hu : file.uploadResult with
    | none =>
      simp only [uploadImagesSeq, uploadImageToStorage, hu, Except.error.injEq,
        Prod.mk.injEq] at h
      obtain ⟨h1, h2⟩ := h
      subst h2
      exact ⟨rfl, rfl, h1.symm⟩
    | some url =>
      simp only [uploadImagesSeq, uploadImageToStorage, hu] at h
      cases hrec : uploadImagesSeq rest { s with objectStore := s.objectStore ++ [url] } with
      | error es =>
        obtain ⟨e2, st2⟩ := es
        simp only [hrec, Except.error.injEq, Prod.mk.injEq] at h
        obtain ⟨h1, h2⟩ := h
        subst h1; subst h2
        obtain ⟨hp, hi, he⟩ := ih _ _ _ hrec
        exact ⟨hp, hi, he⟩
      | ok p =>
        obtain ⟨us, s2⟩ := p
        simp only [hrec] at h
        exact Except.noConfusion h

theorem uploadImagesSeq_fails (l : List FileUpload) (s : Store)
    (h : ∃ file ∈ l, file.uploadResult = none) :
    ∃ s', uploadImagesSeq l s = .error (.uploadFailed, s') := by
  induction l generalizing s with
  | nil => simp at h
  | cons file rest ih =>
    cases hu : file.uploadResult with
    | none =>
      refine ⟨s, ?_⟩
      simp only [uploadImagesSeq, uploadImageToStorage, hu]
    | some url =>
      have hrest : ∃ f ∈ rest, f.uploadResult = none := by
        obtain ⟨g, hg, hgu⟩ := h
        cases List.mem_cons.mp hg with
        | inl heq => subst heq; rw [hu] at hgu; exact absurd hgu (by simp)
        | inr hmem => exact ⟨g, hmem, hgu⟩
      obtain ⟨s', hs'⟩ := ih hrest (s := { s with objectStore := s.objectStore ++ [url] })
      refine ⟨s', ?_⟩
      simp only [uploadImagesSeq, uploadImageToStorage, hu, hs']

theorem uploadImagesSeq_stopsAtFirstFailure (pre : List FileUpload) (bad : FileUpload)
    (rest : List FileUpload) (s : Store)
    (hpre : ∀ file ∈ pre, (FileUpload.uploadResult file).isSome)
    (hbad : bad.uploadResult = none) :
    uploadImagesSeq (pre ++ bad :: rest) s =
      .error (.uploadFailed,
        { s with objectStore :=
            s.objectStore ++ pre.filterMap (fun file => file.uploadResult) }) := by
  induction pre generalizing s with
  | nil =>
    simp only [List.nil_append, List.filterMap_nil, List.append_nil]
    simp only [uploadImagesSeq, uploadImageToStorage, hbad]
  | cons file pre' ih =>
    have hf : (FileUpload.uploadResult file).isSome := hpre file (by simp)
    obtain ⟨url, hurl⟩ := Option.isSome_iff_exists.mp hf
    have hpre' : ∀ g ∈ pre', (FileUpload.uploadResult g).isSome :=
      fun g hg => hpre g (by simp [hg])
    simp only [List.cons_append, uploadImagesSeq, uploadImageToStorage, hurl,
      List.append_eq]
    rw [ih _ hpre']
    simp [hurl, List.append_assoc]

theorem uploadImagesSkip_allFail (l : List FileUpload) (s : Store)
    (h : ∀ file ∈ l, file.uploadResult = none) :
    uploadImagesSkip l s = ([], s) := by
  induction l generalizing s with
  | nil => rfl
  | cons file rest ih =>
    have hf : file.uploadResult = none := h file (by simp)
    simp only [uploadImagesSkip, uploadImageToStorage, hf]
    exact ih _ (fun g hg => h g (by simp [hg]))

theorem deleteImagesFromStorage_frame (urls : List String) (s : Store) :
    (deleteImagesFromStorage urls s).properties = s.properties ∧
      (deleteImagesFromStorage urls s).propertyImages = s.propertyImages := by
  induction urls generalizing s with
  | nil => exact ⟨rfl, rfl⟩
  | cons url rest ih =>
    simp only [deleteImagesFromStorage, List.foldl_cons] at *
    exact ih (deleteImageFromStorage url s)

theorem filter_sizePos_of_allPos (images : List FileUpload)
    (h : ∀ file ∈ images, 0 < file.size) :
    images.filter (fun file => decide (file.size > 0)) = images :=
  List.filter_eq_self.mpr (fun file hf => decide_eq_true (h file hf))

theorem filter_sizePos_of_allZero (images : List FileUpload)
    (h : ∀ file ∈ images, file.size = 0) :
    images.filter (fun file => decide (file.size > 0)) = [] := by
  rw [List.filter_eq_nil_iff]
  intro file hf
  simp [h file hf]

theorem rollbackCreate_clears_row (env : Env) (propertyId : Nat) (st : Store)
    (hcomp : env.compensatingDeleteOk = true) :
    ∀ r ∈ (rollbackCreate env propertyId st).properties, r.id ≠ propertyId := by
  intro r hr heq
  simp only [rollbackCreate, hcomp, if_true, cascadeDeleteProperty,
    List.mem_filter] at hr
  have h2 := hr.2
  simp [heq] at h2

/-- C1: in a create call with at least one valid image where some upload
fails or the batch image insert fails, and where the relational store
accepts the compensating delete, the call propagates an error and no
Property row with the new property's identifier survives. -/
theorem create_atomicity
    (env : Env) (f : FormFields) (images : List FileUpload) (s : Store) (uid : Nat)
    (hauth : env.user = some uid)
    (hins : env.insertPropertyOk = true)
    (hcomp : env.compensatingDeleteOk = true)
    (hvalid : 0 < (images.filter (fun file => decide (file.size > 0))).length)
    (hfail : (∃ file ∈ images.filter (fun file => decide (file.size > 0)),
        file.uploadResult = none) ∨ env.imageInsertOk = false) :
    (∃ e, (createProperty env f images s).result = Except.error e) ∧
      ∀ r ∈ (createProperty env f images s).store.properties,
        r.id ≠ env.newPropertyId := by
  unfold createProperty
  simp only [hauth, hins, eq_self_iff_true, if_true]
  rw [if_pos hvalid]
  set vi := images.filter (fun file => decide (file.size > 0)) with hvi
  set s1 : Store :=
    { s with properties := s.properties ++ [⟨env.newPropertyId, uid, f⟩] } with hs1
  rcases hfail with hup | hinsF
  · obtain ⟨s2, hseq⟩ := uploadImagesSeq_fails vi s1 hup
    simp only [hseq]
    exact ⟨⟨.uploadFailed, rfl⟩, rollbackCreate_clears_row env env.newPropertyId s2 hcomp⟩
  · cases hseq : uploadImagesSeq vi s1 with
    | error es =>
      obtain ⟨e2, s2⟩ := es
      simp only [hseq]
      exact ⟨⟨e2, rfl⟩, rollbackCreate_clears_row env env.newPropertyId s2 hcomp⟩
    | ok p =>
      obtain ⟨us, s2⟩ := p
      obtain ⟨hp, hi, hl⟩ := uploadImagesSeq_ok vi s1 us s2 hseq
      have hlen0 : ¬(us.length = 0) := by
        rw [hl]
        omega
      have hsave : saveImageUrls env env.newPropertyId us s2 = .error .imageInsertFailed := by
        unfold saveImageUrls
        rw [if_neg hlen0, hinsF]
        rfl
      simp only [hseq, hsave]
      exact ⟨⟨.imageInsertFailed, rfl⟩,
        rollbackCreate_clears_row env env.newPropertyId s2 hcomp⟩

/-- Witness for C1: a create call by user 1 with one good and one failing
upload; afterwards no row with the new id 7 exists and the upload error
propagated. -/
theorem create_atomicity_witness :
    envAll.user = some 1 ∧ envAll.insertPropertyOk = true ∧
    envAll.compensatingDeleteOk = true ∧
    0 < (([fileOkA, fileBad]).filter (fun file => decide (file.size > 0))).length ∧
    (∃ file ∈ ([fileOkA, fileBad]).filter (fun file => decide (file.size > 0)),
      file.uploadResult = none) ∧
    (∃ e, (createProperty envAll sampleFields [fileOkA, fileBad] baseStore).result =
      Except.error e) ∧
    ∀ r ∈ (createProperty envAll sampleFields [fileOkA, fileBad] baseStore).store.properties,
      r.id ≠ envAll.newPropertyId := by
  have h := create_atomicity envAll sampleFields [fileOkA, fileBad] baseStore 1
    rfl rfl rfl (by decide) (.inl (by decide))
  exact ⟨rfl, rfl, rfl, by decide, by decide, h.1, h.2⟩

theorem rollbackCreate_id (env : Env) (propertyId : Nat) (st : Store)
    (hcomp : env.compensatingDeleteOk = false) :
    rollbackCreate env propertyId st = st := by
  unfold rollbackCreate
  rw [hcomp]
  rfl

theorem uploadImagesSeq_succeeds (l : List FileUpload) (s : Store)
    (h : ∀ file ∈ l, (FileUpload.uploadResult file).isSome) :
    ∃ urls s', uploadImagesSeq l s = .ok (urls, s') := by
  induction l generalizing s with
  | nil => exact ⟨[], s, rfl⟩
  | cons file rest ih =>
    obtain ⟨url, hurl⟩ := Option.isSome_iff_exists.mp (h file (by simp))
    obtain ⟨us, s', hs'⟩ := ih (s := { s with objectStore := s.objectStore ++ [url] })
      (fun g hg => h g (by simp [hg]))
    exact ⟨url :: us, s', by
      simp only [uploadImagesSeq, uploadImageToStorage, hurl, hs']⟩

/-- C10: when the compensating deletion in the create rollback is itself
rejected by the relational store, the rejection is not surfaced: the
original upload failure (first conjunct) or batch-insert failure (second
conjunct) is the error returned to the caller, and the just-created
Property row survives. -/
theorem create_rollback_rejection_swallowed
    (env : Env) (f : FormFields) (images : List FileUpload) (s : Store) (uid : Nat)
    (hauth : env.user = some uid)
    (hins : env.insertPropertyOk = true)
    (hcomp : env.compensatingDeleteOk = false)
    (hvalid : 0 < (images.filter (fun file => decide (file.size > 0))).length) :
    ((∃ file ∈ images.filter (fun file => decide (file.size > 0)),
        file.uploadResult = none) →
      (createProperty env f images s).result = Except.error .uploadFailed ∧
      (⟨env.newPropertyId, uid, f⟩ : PropertyRow) ∈
        (createProperty env f images s).store.properties) ∧
    ((∀ file ∈ images.filter (fun file => decide (file.size > 0)),
        (FileUpload.uploadResult file).isSome) → env.imageInsertOk = false →
      (createProperty env f images s).result = Except.error .imageInsertFailed ∧
      (⟨env.newPropertyId, uid, f⟩ : PropertyRow) ∈
        (createProperty env f images s).store.properties) := by
  unfold createProperty
  simp only [hauth, hins, eq_self_iff_true, if_true]
  rw [if_pos hvalid]
  set vi := images.filter (fun file => decide (file.size > 0)) with hvi
  set s1 : Store :=
    { s with properties := s.properties ++ [⟨env.newPropertyId, uid, f⟩] } with hs1
  constructor
  · intro hup
    obtain ⟨s2, hseq⟩ := uploadImagesSeq_fails vi s1 hup
    obtain ⟨hp, hi, -⟩ := uploadImagesSeq_err vi s1 _ s2 hseq
    simp only [hseq]
    refine ⟨by trivial, ?_⟩
    show (⟨env.newPropertyId, uid, f⟩ : PropertyRow) ∈
      (rollbackCreate env env.newPropertyId s2).properties
    rw [rollbackCreate_id env _ s2 hcomp, hp, hs1]
    simp
  · intro hok hinsF
    obtain ⟨us, s2, hseq⟩ := uploadImagesSeq_succeeds vi s1 hok
    obtain ⟨hp, hi, hl⟩ := uploadImagesSeq_ok vi s1 us s2 hseq
    have hlen0 : ¬(us.length = 0) := by
      rw [hl]
      omega
    have hsave : saveImageUrls env env.newPropertyId us s2 = .error .imageInsertFailed := by
      unfold saveImageUrls
      rw [if_neg hlen0, hinsF]
      rfl
    simp only [hseq, hsave]
    refine ⟨by trivial, ?_⟩
    show (⟨env.newPropertyId, uid, f⟩ : PropertyRow) ∈
      (rollbackCreate env env.newPropertyId s2).properties
    rw [rollbackCreate_id env _ s2 hcomp, hp, hs1]
    simp

/-- Witness for C10 at a concrete create call whose second upload fails
while the store rejects the compensating delete. -/
theorem create_rollback_rejection_swallowed_witness :
    envNoCompensate.user = some 1 ∧ envNoCompensate.insertPropertyOk = true ∧
    envNoCompensate.compensatingDeleteOk = false ∧
    0 < (([fileOkA, fileBad]).filter (fun file => decide (file.size > 0))).length ∧
    (∃ file ∈ ([fileOkA, fileBad]).filter (fun file => decide (file.size > 0)),
      file.uploadResult = none) ∧
    (createProperty envNoCompensate sampleFields [fileOkA, fileBad] baseStore).result =
      Except.error .uploadFailed ∧
    (⟨envNoCompensate.newPropertyId, 1, sampleFields⟩ : PropertyRow) ∈
      (createProperty envNoCompensate sampleFields [fileOkA, fileBad] baseStore).store.properties := by
  have h := (create_rollback_rejection_swallowed envNoCompensate sampleFields
    [fileOkA, fileBad] baseStore 1 rfl rfl rfl (by decide)).1 (by decide)
  exact ⟨rfl, rfl, rfl, by decide, by decide, h.1, h.2⟩

theorem cascadeDelete_clears_images (propertyId : Nat) (uid : Nat) (d : FormFields)
    (s : Store) (hrow : (⟨propertyId, uid, d⟩ : PropertyRow) ∈ s.properties) :
    ∀ r ∈ (cascadeDeleteProperty
        (fun r => r.id == propertyId && r.user_id == uid) s).propertyImages,
      r.property_id ≠ propertyId := by
  intro r hr heq
  simp only [cascadeDeleteProperty, List.mem_filter] at hr
  have h2 := hr.2
  rw [heq] at h2
  have hmem : propertyId ∈ (s.properties.filter
      (fun r => r.id == propertyId && r.user_id == uid)).map (fun r => r.id) := by
    refine List.mem_map.mpr ⟨⟨propertyId, uid, d⟩, ?_, rfl⟩
    refine List.mem_filter.mpr ⟨hrow, ?_⟩
    simp
  simp [List.elem_iff, hmem] at h2

/-- C3: a successful owner delete reads all of the property's image
locations first: the call succeeds, issues one best-effort file-deletion
attempt per pre-state location of the property, and afterwards no
PropertyImage row referencing the property remains (cascade). -/
theorem delete_completeness
    (env : Env) (propertyId : Nat) (s : Store) (uid : Nat) (d : FormFields)
    (hauth : env.user = some uid)
    (hlist : env.listImagesOk = true)
    (hdel : env.propertyDeleteOk = true)
    (hrow : (⟨propertyId, uid, d⟩ : PropertyRow) ∈ s.properties) :
    (deleteProperty env propertyId s).result = Except.ok () ∧
    (deleteProperty env propertyId s).removeAttempts =
      (s.propertyImages.filter (fun r => r.property_id == propertyId)).map
        (fun r => r.image_url) ∧
    ∀ r ∈ (deleteProperty env propertyId s).store.propertyImages,
      r.property_id ≠ propertyId := by
  unfold deleteProperty
  simp only [hauth, hlist, hdel, eq_self_iff_true, if_true]
  have howns : ownsProperty uid propertyId s = true := by
    unfold ownsProperty
    rw [List.any_eq_true]
    exact ⟨⟨propertyId, uid, d⟩, hrow, by simp⟩
  have hfeq : s.propertyImages.filter (fun r =>
      r.property_id == propertyId && ownsProperty uid r.property_id s) =
      s.propertyImages.filter (fun r => r.property_id == propertyId) := by
    apply List.filter_congr
    intro r _
    by_cases hp : r.property_id = propertyId
    · rw [hp, howns]
      simp
    · simp [hp]
  rw [hfeq]
  set images := (s.propertyImages.filter (fun r => r.property_id == propertyId)).map
    (fun r => r.image_url) with himg
  set s1 := cascadeDeleteProperty
    (fun r => r.id == propertyId && r.user_id == uid) s with hs1
  have hclear := cascadeDelete_clears_images propertyId uid d s hrow
  by_cases hlen : images.length > 0
  · rw [if_pos hlen]
    refine ⟨rfl, rfl, ?_⟩
    intro r hr
    apply hclear
    have := (deleteImagesFromStorage_frame images s1).2
    rw [← hs1, ← this]
    exact hr
  · rw [if_neg hlen]
    have himgs : images = [] := by
      cases hi : images with
      | nil => rfl
      | cons a l => rw [hi] at hlen; simp at hlen
    refine ⟨rfl, by rw [himgs], ?_⟩
    intro r hr
    exact hclear r hr

/-- Witness for C3 at a concrete owner delete of a property with one
image. -/
theorem delete_completeness_witness :
    envAll.user = some 1 ∧ envAll.listImagesOk = true ∧
    envAll.propertyDeleteOk = true ∧
    (⟨1, 1, sampleFields⟩ : PropertyRow) ∈ baseStore.properties ∧
    (deleteProperty envAll 1 baseStore).result = Except.ok () ∧
    (deleteProperty envAll 1 baseStore).removeAttempts =
      (baseStore.propertyImages.filter (fun r => r.property_id == 1)).map
        (fun r => r.image_url) ∧
    ∀ r ∈ (deleteProperty envAll 1 baseStore).store.propertyImages,
      r.property_id ≠ 1 := by
  have h := delete_completeness envAll 1 baseStore 1 sampleFields rfl rfl rfl
    (by decide)
  exact ⟨rfl, rfl, rfl, by decide, h.1, h.2.1, h.2.2⟩

/-- C2 is right and the code wrong (the actions' own doc comments promise
an error when the caller does not own the property, and spec P3 demands
NotFoundOrForbidden): with property 1 owned by user 1, user 2's delete
call and user 2's update call both return plain success —
indistinguishable from a successful mutation — instead of any failure.
The relational stores show zero changes (the id+user filters and the RLS
policies match nothing) and the non-owner delete reads no locations so
issues no storage-deletion attempt, but the non-owner update still fires a
best-effort storage-removal attempt for the caller-supplied location. -/
theorem ownership_mismatch_not_isolated :
    (deleteProperty envOther 1 baseStore).result = Except.ok () ∧
    (deleteProperty envOther 1 baseStore).removeAttempts = [] ∧
    (deleteProperty envOther 1 baseStore).store = baseStore ∧
    (updateProperty envOther 1 sampleFields2 [] ["u"] baseStore).result =
      Except.ok () ∧
    (updateProperty envOther 1 sampleFields2 [] ["u"] baseStore).store.properties =
      baseStore.properties ∧
    (updateProperty envOther 1 sampleFields2 [] ["u"] baseStore).store.propertyImages =
      baseStore.propertyImages ∧
    (updateProperty envOther 1 sampleFields2 [] ["u"] baseStore).removeAttempts =
      ["u"] := by
  decide

theorem deleteImagesFromStorage_objectStore_sub (urls : List String) (s : Store) :
    ∀ u ∈ (deleteImagesFromStorage urls s).objectStore, u ∈ s.objectStore := by
  induction urls generalizing s with
  | nil => exact fun u hu => hu
  | cons url rest ih =>
    intro u hu
    have h1 := ih (deleteImageFromStorage url s) u hu
    exact (List.mem_filter.mp h1).1

theorem addPhase_allFail (env : Env) (propertyId : Nat) (vi : List FileUpload)
    (s2 : Store) (attempts : List String)
    (h : ∀ file ∈ vi, file.uploadResult = none) :
    addPhase env propertyId vi s2 attempts = ⟨.ok (), s2, attempts⟩ := by
  unfold addPhase
  by_cases hv : vi.length > 0
  · rw [if_pos hv, uploadImagesSkip_allFail vi s2 h]
    rfl
  · rw [if_neg hv]

theorem deletePhase_snd (env : Env) (uid : Nat) (D : List String) (s1 : Store) :
    (deletePhase env uid D s1).2 = D := by
  unfold deletePhase
  by_cases h : D.length > 0
  · rw [if_pos h]
  · rw [if_neg h]
    have hD : D = [] := List.length_eq_zero.mp (by omega)
    rw [hD]

theorem deletePhase_fst_properties (env : Env) (uid : Nat) (D : List String)
    (s1 : Store) :
    (deletePhase env uid D s1).1.properties = s1.properties := by
  unfold deletePhase
  by_cases h : D.length > 0
  · rw [if_pos h]
    show (deleteImagesFromStorage D _).properties = s1.properties
    rw [(deleteImagesFromStorage_frame D _).1]
    by_cases hird : env.imageRowDeleteOk = true
    · rw [if_pos hird]
    · rw [if_neg hird]
  · rw [if_neg h]

theorem deletePhase_fst_images_sub (env : Env) (uid : Nat) (D : List String)
    (s1 : Store) :
    ∀ r ∈ (deletePhase env uid D s1).1.propertyImages, r ∈ s1.propertyImages := by
  intro r hr
  unfold deletePhase at hr
  by_cases h : D.length > 0
  · rw [if_pos h] at hr
    have hr2 : r ∈ (if env.imageRowDeleteOk = true then
        { s1 with propertyImages := rowsNotDeleted uid D s1 } else s1).propertyImages := by
      rw [← (deleteImagesFromStorage_frame D _).2]
      exact hr
    by_cases hird : env.imageRowDeleteOk = true
    · rw [if_pos hird] at hr2
      exact (List.mem_filter.mp hr2).1
    · rw [if_neg hird] at hr2
      exact hr2
  · rw [if_neg h] at hr
    exact hr

theorem deletePhase_fst_objectStore_sub (env : Env) (uid : Nat) (D : List String)
    (s1 : Store) :
    ∀ u ∈ (deletePhase env uid D s1).1.objectStore, u ∈ s1.objectStore := by
  intro u hu
  unfold deletePhase at hu
  by_cases h : D.length > 0
  · rw [if_pos h] at hu
    have hu2 := deleteImagesFromStorage_objectStore_sub D _ u hu
    by_cases hird : env.imageRowDeleteOk = true
    · rw [if_pos hird] at hu2
      exact hu2
    · rw [if_neg hird] at hu2
      exact hu2
  · rw [if_neg h] at hu
    exact hu

theorem deletePhase_fst_images_eq (env : Env) (uid : Nat) (D : List String)
    (s1 : Store) (hird : env.imageRowDeleteOk = true) :
    (deletePhase env uid D s1).1.propertyImages =
      s1.propertyImages.filter (fun r =>
        !(D.contains r.image_url && ownsProperty uid r.property_id s1)) := by
  unfold deletePhase
  by_cases h : D.length > 0
  · rw [if_pos h]
    show (deleteImagesFromStorage D _).propertyImages = _
    rw [(deleteImagesFromStorage_frame D _).2, if_pos hird]
    rfl
  · rw [if_neg h]
    have hD : D = [] := List.length_eq_zero.mp (by omega)
    subst hD
    show s1.propertyImages = _
    rw [List.filter_eq_self.mpr]
    intro a _
    rfl

/-- C4: when every new-image upload fails, the update still succeeds: the
Property row update is persisted, the failed uploads are skipped rather
than propagated, and no PropertyImage row is inserted (every image row
afterwards already existed) and no file is added to the object store. -/
theorem update_independence
    (env : Env) (propertyId : Nat) (f : FormFields) (images : List FileUpload)
    (deletedImageUrls : List String) (s : Store) (uid : Nat)
    (hauth : env.user = some uid) (hupd : env.propertyUpdateOk = true)
    (hfailAll : ∀ file ∈ images, file.uploadResult = none) :
    (updateProperty env propertyId f images deletedImageUrls s).result =
      Except.ok () ∧
    (updateProperty env propertyId f images deletedImageUrls s).store.properties =
      s.properties.map (fun r =>
        if r.id == propertyId && r.user_id == uid then { r with data := f }
        else r) ∧
    (∀ r ∈ (updateProperty env propertyId f images deletedImageUrls s).store.propertyImages,
      r ∈ s.propertyImages) ∧
    (∀ u ∈ (updateProperty env propertyId f images deletedImageUrls s).store.objectStore,
      u ∈ s.objectStore) := by
  unfold updateProperty
  simp only [hauth, hupd, eq_self_iff_true, if_true]
  have hvalidFail : ∀ file ∈ images.filter (fun file => decide (file.size > 0)),
      file.uploadResult = none :=
    fun file hf => hfailAll file (List.mem_of_mem_filter hf)
  rw [addPhase_allFail _ _ _ _ _ hvalidFail]
  refine ⟨rfl, ?_, ?_, ?_⟩
  · show (deletePhase env uid deletedImageUrls (updateRowPhase propertyId uid f s)).1.properties = _
    rw [deletePhase_fst_properties]
    rfl
  · intro r hr
    exact deletePhase_fst_images_sub env uid deletedImageUrls
      (updateRowPhase propertyId uid f s) r hr
  · intro u hu
    exact deletePhase_fst_objectStore_sub env uid deletedImageUrls
      (updateRowPhase propertyId uid f s) u hu

/-- Witness for C4 at a concrete update whose only new image fails to
upload. -/
theorem update_independence_witness :
    envAll.user = some 1 ∧ envAll.propertyUpdateOk = true ∧
    (∀ file ∈ [fileBad], file.uploadResult = none) ∧
    (updateProperty envAll 1 sampleFields2 [fileBad] [] baseStore).result =
      Except.ok () ∧
    (updateProperty envAll 1 sampleFields2 [fileBad] [] baseStore).store.properties =
      baseStore.properties.map (fun r =>
        if r.id == 1 && r.user_id == 1 then { r with data := sampleFields2 }
        else r) ∧
    (∀ r ∈ (updateProperty envAll 1 sampleFields2 [fileBad] [] baseStore).store.propertyImages,
      r ∈ baseStore.propertyImages) ∧
    (∀ u ∈ (updateProperty envAll 1 sampleFields2 [fileBad] [] baseStore).store.objectStore,
      u ∈ baseStore.objectStore) := by
  have h := update_independence envAll 1 sampleFields2 [fileBad] [] baseStore 1
    rfl rfl (by decide)
  exact ⟨rfl, rfl, by decide, h.1, h.2.1, h.2.2.1, h.2.2.2⟩

theorem rollbackCreate_spec (env : Env) (propertyId : Nat) (st : Store)
    (hcomp : env.compensatingDeleteOk = true)
    (hfreshI : ∀ r ∈ st.propertyImages, r.property_id ≠ propertyId) :
    rollbackCreate env propertyId st =
      { st with properties :=
          st.properties.filter (fun r => !(r.id == propertyId)) } := by
  unfold rollbackCreate
  rw [hcomp]
  simp only [eq_self_iff_true, if_true]
  unfold cascadeDeleteProperty
  have hkept : st.propertyImages.filter
      (fun r => !(((st.properties.filter (fun r => r.id == propertyId)).map
        (fun r => r.id)).contains r.property_id)) = st.propertyImages := by
    apply List.filter_eq_self.mpr
    intro r hr
    have hnot : r.property_id ∉
        (st.properties.filter (fun q => q.id == propertyId)).map (fun q => q.id) := by
      intro hmem
      obtain ⟨q, hq, hqid⟩ := List.mem_map.mp hmem
      have hq2 := (List.mem_filter.mp hq).2
      rw [beq_iff_eq] at hq2
      exact hfreshI r hr (by rw [← hqid, hq2])
    simp [List.elem_iff, hnot]
  simp only [hkept]

/-- C5: create uploads files one at a time in input order, so when the
upload after prefix `pre` fails (all of `pre` accepted, all sizes
positive), exactly the locations of `pre` are added to the object store
and they remain there after the rollback; the call fails with the upload
error and the relational stores end as before the call (only the new
Property row was deleted again). -/
theorem create_sequential_uploads_no_file_rollback
    (env : Env) (f : FormFields) (pre rest : List FileUpload) (bad : FileUpload)
    (s : Store) (uid : Nat)
    (hauth : env.user = some uid)
    (hins : env.insertPropertyOk = true)
    (hcomp : env.compensatingDeleteOk = true)
    (hfreshP : ∀ r ∈ s.properties, r.id ≠ env.newPropertyId)
    (hfreshI : ∀ r ∈ s.propertyImages, r.property_id ≠ env.newPropertyId)
    (hsizes : ∀ file ∈ pre ++ bad :: rest, 0 < file.size)
    (hpre : ∀ file ∈ pre, (FileUpload.uploadResult file).isSome)
    (hbad : bad.uploadResult = none) :
    (createProperty env f (pre ++ bad :: rest) s).result =
      Except.error .uploadFailed ∧
    (createProperty env f (pre ++ bad :: rest) s).store.objectStore =
      s.objectStore ++ pre.filterMap (fun file => file.uploadResult) ∧
    (createProperty env f (pre ++ bad :: rest) s).store.properties =
      s.properties ∧
    (createProperty env f (pre ++ bad :: rest) s).store.propertyImages =
      s.propertyImages := by
  unfold createProperty
  simp only [hauth, hins, eq_self_iff_true, if_true]
  rw [filter_sizePos_of_allPos _ hsizes]
  have hlen : 0 < (pre ++ bad :: rest).length := by simp
  rw [if_pos hlen]
  have hseq := uploadImagesSeq_stopsAtFirstFailure pre bad rest
    { s with properties := s.properties ++ [⟨env.newPropertyId, uid, f⟩] } hpre hbad
  simp only [hseq]
  have hroll := rollbackCreate_spec env env.newPropertyId
    { s with
      properties := s.properties ++ [⟨env.newPropertyId, uid, f⟩],
      objectStore := s.objectStore ++ pre.filterMap (fun file => file.uploadResult) }
    hcomp hfreshI
  have hprops : (s.properties ++ [⟨env.newPropertyId, uid, f⟩] : List PropertyRow).filter
      (fun r => !(r.id == env.newPropertyId)) = s.properties := by
    rw [List.filter_append]
    have h1 : s.properties.filter (fun r => !(r.id == env.newPropertyId)) =
        s.properties :=
      List.filter_eq_self.mpr (fun r hr => by simp [hfreshP r hr])
    have h2 : ([⟨env.newPropertyId, uid, f⟩] : List PropertyRow).filter
        (fun r => !(r.id == env.newPropertyId)) = [] := by simp
    rw [h1, h2, List.append_nil]
  refine ⟨by trivial, ?_, ?_, ?_⟩
  · show (rollbackCreate env env.newPropertyId _).objectStore = _
    rw [hroll]
  · show (rollbackCreate env env.newPropertyId _).properties = _
    rw [hroll]
    exact hprops
  · show (rollbackCreate env env.newPropertyId _).propertyImages = _
    rw [hroll]

/-- Witness for C5: prefix `[fileOkA]`, failing file `fileBad`, trailing
file `fileOkB`; only `urlA` is added to the object store and it survives
the rollback. -/
theorem create_sequential_uploads_no_file_rollback_witness :
    envAll.user = some 1 ∧ envAll.insertPropertyOk = true ∧
    envAll.compensatingDeleteOk = true ∧
    (∀ r ∈ baseStore.properties, r.id ≠ envAll.newPropertyId) ∧
    (∀ r ∈ baseStore.propertyImages, r.property_id ≠ envAll.newPropertyId) ∧
    (∀ file ∈ [fileOkA] ++ fileBad :: [fileOkB], 0 < file.size) ∧
    (∀ file ∈ [fileOkA], (FileUpload.uploadResult file).isSome) ∧
    fileBad.uploadResult = none ∧
    (createProperty envAll sampleFields ([fileOkA] ++ fileBad :: [fileOkB]) baseStore).result =
      Except.error .uploadFailed ∧
    (createProperty envAll sampleFields ([fileOkA] ++ fileBad :: [fileOkB]) baseStore).store.objectStore =
      baseStore.objectStore ++ ([fileOkA] : List FileUpload).filterMap (fun file => file.uploadResult) ∧
    (createProperty envAll sampleFields ([fileOkA] ++ fileBad :: [fileOkB]) baseStore).store.properties =
      baseStore.properties ∧
    (createProperty envAll sampleFields ([fileOkA] ++ fileBad :: [fileOkB]) baseStore).store.propertyImages =
      baseStore.propertyImages := by
  have h := create_sequential_uploads_no_file_rollback envAll sampleFields
    [fileOkA] [fileOkB] fileBad baseStore 1 rfl rfl rfl (by decide) (by decide)
    (by decide) (by decide) rfl
  exact ⟨rfl, rfl, rfl, by decide, by decide, by decide, by decide, rfl,
    h.1, h.2.1, h.2.2.1, h.2.2.2⟩

/-- C9 as stated fails on the code: the batched deletion indeed carries no
filter on the target property identifier, but the store's RLS delete
policy scopes it by the acting user.  Acting as user 1 on `twoOwnerStore`
with both locations `u` and `v` listed, the caller-owned row at `u` is
deleted while the row at `v` — property 2, owned by user 2 — survives even
though its location appears in the call's deleted list. -/
theorem update_image_row_deletion_not_unscoped_cex :
    "v" ∈ (["u", "v"] : List String) ∧
    (⟨2, "v"⟩ : ImageRow) ∈ twoOwnerStore.propertyImages ∧
    (updateProperty envAll 1 sampleFields [] ["u", "v"] twoOwnerStore).result =
      Except.ok () ∧
    (⟨2, "v"⟩ : ImageRow) ∈
      (updateProperty envAll 1 sampleFields [] ["u", "v"] twoOwnerStore).store.propertyImages ∧
    (⟨1, "u"⟩ : ImageRow) ∉
      (updateProperty envAll 1 sampleFields [] ["u", "v"] twoOwnerStore).store.propertyImages := by
  decide

theorem ownsProperty_updateRowPhase (uid : Nat) (propertyId : Nat)
    (otherId : Nat) (f : FormFields) (s : Store) :
    ownsProperty uid otherId (updateRowPhase propertyId uid f s) =
      ownsProperty uid otherId s := by
  simp only [ownsProperty, updateRowPhase]
  rw [List.any_map]
  congr 1
  funext r
  simp only [Function.comp_apply]
  by_cases h : (r.id == propertyId && r.user_id == uid) = true
  · rw [if_pos h]
  · rw [if_neg h]

/-- C9 amended: the batched image-row deletion matches rows by location
with no filter on the target property identifier — rows of the caller's
other properties change when their location is listed — but the RLS
delete policy scopes it to rows of properties the acting user owns:
after an update with no new images, a pre-state image row survives exactly
when its location is not in `deletedImageUrls` or its property is not
owned by the caller. -/
theorem update_deletes_image_rows_by_location_within_owned
    (env : Env) (propertyId : Nat) (f : FormFields)
    (deletedImageUrls : List String) (s : Store) (uid : Nat)
    (hauth : env.user = some uid) (hupd : env.propertyUpdateOk = true)
    (hird : env.imageRowDeleteOk = true) :
    (updateProperty env propertyId f [] deletedImageUrls s).result =
      Except.ok () ∧
    (updateProperty env propertyId f [] deletedImageUrls s).store.propertyImages =
      s.propertyImages.filter (fun r =>
        !(deletedImageUrls.contains r.image_url &&
          ownsProperty uid r.property_id s)) := by
  unfold updateProperty
  simp only [hauth, hupd, eq_self_iff_true, if_true]
  have hnone : ∀ file ∈ ([] : List FileUpload).filter
      (fun file => decide (file.size > 0)), file.uploadResult = none := by
    intro file hf
    simp at hf
  rw [addPhase_allFail _ _ _ _ _ hnone]
  refine ⟨rfl, ?_⟩
  show (deletePhase env uid deletedImageUrls (updateRowPhase propertyId uid f s)).1.propertyImages = _
  rw [deletePhase_fst_images_eq env uid _ _ hird]
  simp only [ownsProperty_updateRowPhase]
  rfl

/-- Witness for amended C9 on `twoOwnerStore`: acting as user 1 with both
locations listed, the surviving rows are exactly those of the
location-and-ownership filter. -/
theorem update_deletes_image_rows_by_location_within_owned_witness :
    envAll.user = some 1 ∧ envAll.propertyUpdateOk = true ∧
    envAll.imageRowDeleteOk = true ∧
    (updateProperty envAll 1 sampleFields [] ["u", "v"] twoOwnerStore).result =
      Except.ok () ∧
    (updateProperty envAll 1 sampleFields [] ["u", "v"] twoOwnerStore).store.propertyImages =
      twoOwnerStore.propertyImages.filter (fun r =>
        !((["u", "v"] : List String).contains r.image_url &&
          ownsProperty 1 r.property_id twoOwnerStore)) := by
  have h := update_deletes_image_rows_by_location_within_owned envAll 1
    sampleFields ["u", "v"] twoOwnerStore 1 rfl rfl rfl
  exact ⟨rfl, rfl, rfl, h.1, h.2⟩

/-- C8: zero-size files are filtered out before any upload: each of the
two operations behaves identically on its image list and on that list with
the zero-size files removed; and a call whose list holds only zero-size
files uploads nothing and inserts no image row — create still inserts only
the Property row, update (with nothing marked deleted) leaves image rows
and object store untouched. -/
theorem zero_size_files_filtered_out
    (env : Env) (f : FormFields) (images : List FileUpload)
    (propertyId : Nat) (deletedImageUrls : List String) (s : Store) (uid : Nat)
    (hauth : env.user = some uid)
    (hins : env.insertPropertyOk = true)
    (hupd : env.propertyUpdateOk = true)
    (hzero : ∀ file ∈ images, file.size = 0) :
    (∀ imgs : List FileUpload,
      createProperty env f imgs s =
        createProperty env f (imgs.filter (fun file => decide (file.size > 0))) s) ∧
    (∀ imgs : List FileUpload,
      updateProperty env propertyId f imgs deletedImageUrls s =
        updateProperty env propertyId f
          (imgs.filter (fun file => decide (file.size > 0))) deletedImageUrls s) ∧
    createProperty env f images s =
      ⟨.ok (), { s with properties :=
        s.properties ++ [⟨env.newPropertyId, uid, f⟩] }, []⟩ ∧
    (updateProperty env propertyId f images [] s).result = Except.ok () ∧
    (updateProperty env propertyId f images [] s).store.propertyImages =
      s.propertyImages ∧
    (updateProperty env propertyId f images [] s).store.objectStore =
      s.objectStore := by
  have hff : ∀ imgs : List FileUpload,
      (imgs.filter (fun file => decide (file.size > 0))).filter
        (fun file => decide (file.size > 0)) =
      imgs.filter (fun file => decide (file.size > 0)) := by
    intro imgs
    rw [List.filter_filter]
    simp
  have hc : createProperty env f images s =
      ⟨.ok (), { s with properties :=
        s.properties ++ [⟨env.newPropertyId, uid, f⟩] }, []⟩ := by
    unfold createProperty
    simp only [hauth, hins, eq_self_iff_true, if_true]
    rw [filter_sizePos_of_allZero images hzero]
    rfl
  have hu : updateProperty env propertyId f images [] s =
      ⟨.ok (), updateRowPhase propertyId uid f s, []⟩ := by
    unfold updateProperty
    simp only [hauth, hupd, eq_self_iff_true, if_true]
    rw [filter_sizePos_of_allZero images hzero]
    rfl
  refine ⟨?_, ?_, hc, ?_, ?_, ?_⟩
  · intro imgs
    unfold createProperty
    rw [hauth]
    rw [hff imgs]
  · intro imgs
    unfold updateProperty
    rw [hauth]
    rw [hff imgs]
  · rw [hu]
  · rw [hu]
    rfl
  · rw [hu]
    rfl

/-- Witness for C8 at a concrete call whose only image has size zero. -/
theorem zero_size_files_filtered_out_witness :
    envAll.user = some 1 ∧ envAll.insertPropertyOk = true ∧
    envAll.propertyUpdateOk = true ∧
    (∀ file ∈ [fileZero], file.size = 0) ∧
    createProperty envAll sampleFields [fileZero, fileOkA] baseStore =
      createProperty envAll sampleFields
        (([fileZero, fileOkA]).filter (fun file => decide (file.size > 0))) baseStore ∧
    updateProperty envAll 1 sampleFields [fileZero, fileOkA] ["u"] baseStore =
      updateProperty envAll 1 sampleFields
        (([fileZero, fileOkA]).filter (fun file => decide (file.size > 0))) ["u"] baseStore ∧
    createProperty envAll sampleFields [fileZero] baseStore =
      ⟨.ok (), { baseStore with properties :=
        baseStore.properties ++ [⟨envAll.newPropertyId, 1, sampleFields⟩] }, []⟩ ∧
    (updateProperty envAll 1 sampleFields [fileZero] [] baseStore).result =
      Except.ok () ∧
    (updateProperty envAll 1 sampleFields [fileZero] [] baseStore).store.propertyImages =
      baseStore.propertyImages ∧
    (updateProperty envAll 1 sampleFields [fileZero] [] baseStore).store.objectStore =
      baseStore.objectStore := by
  have h := zero_size_files_filtered_out envAll sampleFields [fileZero] 1 ["u"]
    baseStore 1 rfl rfl rfl (by decide)
  exact ⟨rfl, rfl, rfl, by decide, h.1 [fileZero, fileOkA], h.2.1 [fileZero, fileOkA],
    h.2.2.1, h.2.2.2.1, h.2.2.2.2.1, h.2.2.2.2.2⟩

/-- C7: if no user identity resolves, each of the three operations raises
the authentication failure and performs no relational-store or
object-store operation: all three stores are returned unchanged and no
file-deletion attempt is issued. -/
theorem authentication_precedes_all_store_access
    (env : Env) (f : FormFields) (images : List FileUpload)
    (deletedImageUrls : List String) (propertyId : Nat) (s : Store)
    (hauth : env.user = none) :
    createProperty env f images s = ⟨.error .authRequired, s, []⟩ ∧
    updateProperty env propertyId f images deletedImageUrls s =
      ⟨.error .authRequired, s, []⟩ ∧
    deleteProperty env propertyId s = ⟨.error .authRequired, s, []⟩ := by
  unfold createProperty updateProperty deleteProperty
  rw [hauth]
  exact ⟨rfl, rfl, rfl⟩

/-- Witness for C7 at a concrete signed-out call. -/
theorem authentication_precedes_all_store_access_witness :
    envNoUser.user = none ∧
    createProperty envNoUser sampleFields [fileOkA] baseStore =
      ⟨.error .authRequired, baseStore, []⟩ ∧
    updateProperty envNoUser 1 sampleFields [fileOkA] ["u"] baseStore =
      ⟨.error .authRequired, baseStore, []⟩ ∧
    deleteProperty envNoUser 1 baseStore = ⟨.error .authRequired, baseStore, []⟩ := by
  have h := authentication_precedes_all_store_access envNoUser sampleFields
    [fileOkA] ["u"] 1 baseStore rfl
  exact ⟨rfl, h.1, h.2.1, h.2.2⟩

/-- C6: when the relational update of the Property row itself fails, the
persistence failure propagates immediately and no image operation occurs:
the stores are returned exactly as they were and no file-deletion attempt
is issued. -/
theorem update_primary_failure_is_atomic
    (env : Env) (propertyId : Nat) (f : FormFields) (images : List FileUpload)
    (deletedImageUrls : List String) (s : Store) (uid : Nat)
    (hauth : env.user = some uid) (hfail : env.propertyUpdateOk = false) :
    updateProperty env propertyId f images deletedImageUrls s =
      ⟨.error .persistenceFailure, s, []⟩ := by
  unfold updateProperty
  rw [hauth, hfail]
  rfl

/-- Witness for C6 at a concrete call with a failing row update. -/
theorem update_primary_failure_is_atomic_witness :
    envUpdFail.user = some 1 ∧ envUpdFail.propertyUpdateOk = false ∧
    updateProperty envUpdFail 1 sampleFields2 [fileOkA] ["u"] baseStore =
      ⟨.error .persistenceFailure, baseStore, []⟩ :=
  ⟨rfl, rfl, update_primary_failure_is_atomic envUpdFail 1 sampleFields2
    [fileOkA] ["u"] baseStore 1 rfl rfl⟩

end Propmatch
